import Mathlib

/-!
Verification of the STAGGCN traffic-flow model
(`trafficdl/model/traffic_flow_prediction/STAGGCN.py`).

Tensors are shallowly embedded as a shape (a list of dimension sizes)
together with a flat (row-major) data function `ℕ → ℝ`.  PyTorch layers
defined in the repository itself (reshape, permute, slicing, `nn.Linear`,
elementwise activations, the TCN stack, the learned adjacency matrix) are
translated concretely; layers that come from external libraries
(`nn.MultiheadAttention`, `torch_geometric.nn.GATConv`, the TCN submodule
when viewed from `STCell`) are abstract function parameters whose shape
contracts appear as hypotheses.  Dropout layers are driven by an explicit
random-state parameter `rng : ℕ → ℕ → ℝ` supplying one multiplicative mask
per dropout call, mirroring the torch RNG.  Fallible reshapes return
`Option`.
-/

noncomputable section

namespace STAGGCNV

/-- A torch tensor: a shape and a flat row-major data function. -/
@[ext]
structure Tensor where
  shape : List ℕ
  data : ℕ → ℝ

/-- Number of elements of a tensor (product of the dimension sizes). -/
def Tensor.numel (t : Tensor) : ℕ := t.shape.prod

/-- Size of dimension `i` (0 when out of range, as shapes are fixed by hypotheses). -/
def Tensor.dim (t : Tensor) (i : ℕ) : ℕ := t.shape.getD i 0

/-- Size of the last dimension. -/
def Tensor.lastDim (t : Tensor) : ℕ := (t.shape.getLast?).getD 0

/-- Elementwise map, shape preserved (torch elementwise ops). -/
def mapT (f : ℝ → ℝ) (t : Tensor) : Tensor :=
  { shape := t.shape, data := fun i => f (t.data i) }

/-- Elementwise addition (`a + b` on same-shaped tensors). -/
def addT (a b : Tensor) : Tensor :=
  { shape := a.shape, data := fun i => a.data i + b.data i }

/-- Elementwise (Hadamard) product (`a * b` on same-shaped tensors). -/
def mulT (a b : Tensor) : Tensor :=
  { shape := a.shape, data := fun i => a.data i * b.data i }

/-- The tensor `1 - t` (broadcast scalar minus tensor). -/
def oneMinusT (t : Tensor) : Tensor := mapT (fun v => 1 - v) t

/-- The tensor `torch.tanh t`. -/
def tanhT (t : Tensor) : Tensor := mapT Real.tanh t

/-- The tensor `torch.sigmoid t`. -/
def sigmoidT (t : Tensor) : Tensor := mapT (fun v => 1 / (1 + Real.exp (-v))) t

/-- The tensor `F.relu t`. -/
def reluT (t : Tensor) : Tensor := mapT (fun v => max v 0) t

/-- The tensor `F.leaky_relu t` (default negative slope 0.01). -/
def leakyReluT (t : Tensor) : Tensor :=
  mapT (fun v => if v < 0 then 0.01 * v else v) t

/-- A dropout call `F.dropout`/`nn.Dropout`: elementwise multiplication by the
mask the RNG produced for this call (in eval mode the mask is constant 1). -/
def dropoutT (mask : ℕ → ℝ) (t : Tensor) : Tensor :=
  { shape := t.shape, data := fun i => mask i * t.data i }

/-- The slice `x[:, :, :, 0]` of a 4-dimensional tensor: the flat entry `i`
of the result is the flat entry `i * dim3` (feature channel 0) of `x`. -/
def select3 (t : Tensor) : Tensor :=
  { shape := [t.dim 0, t.dim 1, t.dim 2],
    data := fun i =>
      if i < t.dim 0 * t.dim 1 * t.dim 2 then t.data (i * t.dim 3) else 0 }

/-- The permutation `x.permute(0, 2, 1)` of a 3-dimensional tensor. -/
def permute021 (t : Tensor) : Tensor :=
  { shape := [t.dim 0, t.dim 2, t.dim 1],
    data := fun i =>
      let d1 := t.dim 1
      let d2 := t.dim 2
      let i0 := i / (d2 * d1)
      let r := i % (d2 * d1)
      let i2 := r / d1
      let i1 := r % d1
      t.data ((i0 * d1 + i1) * d2 + i2) }

/-- The permutation `x.permute(2, 0, 1)` of a 3-dimensional tensor. -/
def permute201 (t : Tensor) : Tensor :=
  { shape := [t.dim 2, t.dim 0, t.dim 1],
    data := fun i =>
      let d0 := t.dim 0
      let d1 := t.dim 1
      let d2 := t.dim 2
      let a := i / (d0 * d1)
      let r := i % (d0 * d1)
      let b := r / d1
      let c := r % d1
      t.data ((b * d1 + c) * d2 + a) }

/-- The permutation `x.permute(1, 2, 0)` of a 3-dimensional tensor. -/
def permute120 (t : Tensor) : Tensor :=
  { shape := [t.dim 1, t.dim 2, t.dim 0],
    data := fun i =>
      let d0 := t.dim 0
      let d1 := t.dim 1
      let d2 := t.dim 2
      let a := i / (d2 * d0)
      let r := i % (d2 * d0)
      let b := r / d0
      let c := r % d0
      t.data ((c * d1 + a) * d2 + b) }

/-- `x.unsqueeze(1)` on a 2-dimensional tensor. -/
def unsqueeze1 (t : Tensor) : Tensor :=
  { shape := [t.dim 0, 1, t.dim 1], data := t.data }

/-- A reshape whose leading dimension is inferred, `torch.reshape(x, (-1, ...rest))`
(torch additionally requires `rest.prod` to divide `numel`; every use below
satisfies this under the stated shape hypotheses). -/
def reshapeI (rest : List ℕ) (t : Tensor) : Tensor :=
  { shape := (t.numel / rest.prod) :: rest, data := t.data }

/-- A reshape to an explicit full shape, `torch.reshape(x, s)`: it errors
(`none`) when the element counts disagree. -/
def reshapeE (s : List ℕ) (t : Tensor) : Option Tensor :=
  if s.prod = t.numel then some { shape := s, data := t.data } else none

/-- An `nn.Linear(inF, outF)` applied to the last dimension: `inF` is read off
the input's last dimension, `W : outF × inF`, `B : outF`. -/
def linearT (W : ℕ → ℕ → ℝ) (B : ℕ → ℝ) (outF : ℕ) (t : Tensor) : Tensor :=
  { shape := t.shape.dropLast ++ [outF],
    data := fun i =>
      let inF := t.lastDim
      let r := i / outF
      let o := i % outF
      B o + ∑ j ∈ Finset.range inF, W o j * t.data (r * inF + j) }

/-- `torch.mm` of two parameter matrices given as index functions:
`A : n × k` times `B : k × m`. -/
def mm2 (n k m : ℕ) (A B : ℕ → ℕ → ℝ) : Tensor :=
  { shape := [n, m],
    data := fun i => ∑ j ∈ Finset.range k, A (i / m) j * B j (i % m) }

/-- `F.softmax(t, dim=1)` on a 2-dimensional tensor: each row is normalized
by the sum of the exponentials over that row. -/
def softmaxRows (t : Tensor) : Tensor :=
  { shape := t.shape,
    data := fun i =>
      let m := t.dim 1
      Real.exp (t.data i) /
        ∑ c ∈ Finset.range m, Real.exp (t.data (i / m * m + c)) }

/-- The learned adaptive adjacency matrix
`F.softmax(F.relu(torch.mm(source_embed, target_embed)), dim=1)` with
`source_embed : node_num × k` and `target_embed : k × node_num`. -/
def learnedMatrix (n k : ℕ) (S Tg : ℕ → ℕ → ℝ) : Tensor :=
  softmaxRows (reluT (mm2 n k n S Tg))

/-- `M.matmul(t)` of a 2-dimensional matrix with a 3-dimensional tensor
(torch broadcasts `M` over the batch dimension of `t`). -/
def bmmB (M t : Tensor) : Tensor :=
  { shape := t.shape,
    data := fun idx =>
      let n := t.dim 1
      let T := t.dim 2
      let ib := idx / (n * T)
      let r := idx % (n * T)
      let i := r / T
      let u := r % T
      ∑ j ∈ Finset.range (M.dim 1), M.data (i * M.dim 1 + j) * t.data ((ib * n + j) * T + u) }

/-- `M.matmul(t)` of two 2-dimensional tensors. -/
def mmTT (M t : Tensor) : Tensor :=
  { shape := [M.dim 0, t.dim 1],
    data := fun idx =>
      let F := t.dim 1
      let i := idx / F
      let c := idx % F
      ∑ j ∈ Finset.range (M.dim 1), M.data (i * M.dim 1 + j) * t.data (j * F + c) }

/-- `torch.cat((a, b), dim=2)` of two 3-dimensional tensors. -/
def cat2 (a b : Tensor) : Tensor :=
  { shape := [a.dim 0, a.dim 1, a.dim 2 + b.dim 2],
    data := fun i =>
      let ga := a.dim 2
      let gb := b.dim 2
      let r := i / (ga + gb)
      let c := i % (ga + gb)
      if c < ga then a.data (r * ga + c) else b.data (r * gb + (c - ga)) }

/-- The slice `y[..., :d]` keeping the first `d` feature channels of the last
dimension. -/
def sliceLast (d : ℕ) (t : Tensor) : Tensor :=
  { shape := t.shape.dropLast ++ [min d t.lastDim],
    data := fun i =>
      let l := t.lastDim
      let m := min d l
      t.data (i / m * l + i % m) }

/-- The configuration and data features `STAGGCN.__init__` stores on the
model object (`config` and `data_feature` entries actually used).  The
scaler's `inverse_transform` and the two edge-index tensors are externally
supplied data features. -/
structure Config where
  num_nodes : ℕ
  feature_dim : ℕ
  output_dim : ℕ
  input_window : ℕ
  output_window : ℕ
  graph_dim : ℕ
  tcn_dim : List ℕ
  choice : List ℕ
  batch_size : ℕ
  inverse_transform : Tensor → Tensor
  edge_index : Tensor
  dtw_edge_index : Tensor

/-- The last entry of `tcn_dim` (`self.tcn_dim[-1]`). -/
def Config.tcnLast (cfg : Config) : ℕ := (cfg.tcn_dim.getLast?).getD 0

/-- Learned parameters of one graph-attention branch of `STCell` (the `sp_`
block for `choice[1]` and the `dtw_` block for `choice[2]` are textually
parallel; the `GATConv` layers are external library modules and appear as
abstract functions of the node features and the edge index). -/
structure GatBranchLayers where
  originW : ℕ → ℕ → ℝ
  originB : ℕ → ℝ
  gconv1 : Tensor → Tensor → Tensor
  gconv2 : Tensor → Tensor → Tensor
  gconv3 : Tensor → Tensor → Tensor
  gconv4 : Tensor → Tensor → Tensor
  sourceEmbed : ℕ → ℕ → ℝ
  targetEmbed : ℕ → ℕ → ℝ
  lin1W : ℕ → ℕ → ℝ
  lin1B : ℕ → ℝ
  lin2W : ℕ → ℕ → ℝ
  lin2B : ℕ → ℝ
  lin3W : ℕ → ℕ → ℝ
  lin3B : ℕ → ℝ
  lin4W : ℕ → ℕ → ℝ
  lin4B : ℕ → ℝ

/-- Learned parameters of `STAGGCNModel` and its `STCell`.  `self_atten`
(`nn.MultiheadAttention`) is an external library module; `tcn`
(`TemporalConvNet`) consumes part of the random state through its internal
dropout layers, so it is a function of the RNG as well. -/
structure Layers where
  seqW : ℕ → ℕ → ℝ
  seqB : ℕ → ℝ
  self_atten : Tensor → Tensor
  tcn : (ℕ → ℕ → ℝ) → Tensor → Tensor
  tlinW : ℕ → ℕ → ℝ
  tlinB : ℕ → ℝ
  sp : GatBranchLayers
  dtw : GatBranchLayers
  outW : ℕ → ℕ → ℝ
  outB : ℕ → ℝ

/-- A batch as consumed by `forward`/`calculate_loss`. -/
structure Batch where
  X : Tensor
  y : Tensor

/-- The `self.output_dim = np.sum(choice) * graph_dim` attribute of
`STAGGCNModel`. -/
def STAGGCNModel.output_dim (cfg : Config) : ℕ := cfg.choice.sum * cfg.graph_dim

/-- The `self.output_dim = np.sum(choice) * graph_dim` attribute of `STCell`. -/
def STCell.output_dim (cfg : Config) : ℕ := cfg.choice.sum * cfg.graph_dim

/-- The residual sequence transform `x = self.seq_linear(x) + x` executed at
the head of the `choice[1]` and `choice[2]` blocks of `STCell.forward`. -/
def STCell.seqTransform (cfg : Config) (L : Layers) (x : Tensor) : Tensor :=
  addT (linearT L.seqW L.seqB cfg.input_window x) x

/-- The value of the local variable `x` at the point the spatial branch reads
it: the residual transform has been applied when `choice[1] == 1`. -/
def STCell.spInput (cfg : Config) (L : Layers) (x : Tensor) : Tensor :=
  if cfg.choice.getD 1 0 = 1 then STCell.seqTransform cfg L x else x

/-- The value of the local variable `x` at the point the semantic (DTW)
branch reads it: the residual transform is applied a second time when
`choice[2] == 1`, on top of whatever the spatial block left in `x`. -/
def STCell.dtwInput (cfg : Config) (L : Layers) (x : Tensor) : Tensor :=
  if cfg.choice.getD 2 0 = 1 then STCell.seqTransform cfg L (STCell.spInput cfg L x)
  else STCell.spInput cfg L x

/-- The temporal branch of `STCell.forward` (the `choice[0]` block):
self-attention with a residual tanh, then the TCN, then the linear head,
reshaped to `[batch, node_num, graph_dim]`. -/
def STCell.tBranch (cfg : Config) (L : Layers) (rng : ℕ → ℕ → ℝ) (x : Tensor) : Tensor :=
  let n := cfg.num_nodes
  let T := cfg.input_window
  let atten_input := permute201 (reshapeI [n, T] x)
  let atten_raw := L.self_atten atten_input
  let atten_output := reshapeI [T] (permute120 (tanhT (addT atten_raw atten_input)))
  let tcn_input := unsqueeze1 atten_output
  let tcn_output := L.tcn (fun k => rng (8 + k)) tcn_input
  let tcn_flat := reshapeI [cfg.tcnLast * T] tcn_output
  let tcn_lin := linearT L.tlinW L.tlinB cfg.graph_dim tcn_flat
  reshapeI [n, cfg.graph_dim] tcn_lin

/-- One graph-attention branch of `STCell.forward` (the bodies of the
`choice[1]` and `choice[2]` blocks, which are textually parallel): four
`GATConv` layers gated against an adaptive branch driven by the learned
adjacency matrix, with the gating formulas of the source.  `mask k` is the
dropout mask of the branch's `k`-th `F.dropout` call. -/
def gatBranch (n T g : ℕ) (B : GatBranchLayers) (mask : ℕ → ℕ → ℝ)
    (edge : Tensor) (x : Tensor) : Tensor :=
  let lm := learnedMatrix n 12 B.sourceEmbed B.targetEmbed
  let gout1 := B.gconv1 x edge
  let adpIn1 := reshapeI [n, T] x
  let adp1 := reshapeI [g] (linearT B.lin1W B.lin1B g (bmmB lm (dropoutT (mask 0) adpIn1)))
  let origin := linearT B.originW B.originB g x
  let out1 := addT (mulT (tanhT gout1) (sigmoidT adp1)) (mulT origin (oneMinusT (sigmoidT adp1)))
  let gout2 := B.gconv2 (tanhT out1) edge
  let adpIn2 := reshapeI [n, g] (tanhT out1)
  let adp2 := reshapeI [g] (linearT B.lin2W B.lin2B g (bmmB lm (dropoutT (mask 1) adpIn2)))
  let out2 := addT (mulT (leakyReluT gout2) (sigmoidT adp2)) (mulT out1 (oneMinusT (sigmoidT adp2)))
  let gout3 := B.gconv3 (reluT out2) edge
  let adpIn3 := reshapeI [n, g] (reluT out2)
  let adp3 := reshapeI [g] (linearT B.lin3W B.lin3B g (bmmB lm (dropoutT (mask 2) adpIn3)))
  let out3 := addT (mulT (reluT gout3) (sigmoidT adp3)) (mulT out2 (oneMinusT (sigmoidT adp3)))
  let gout4 := B.gconv4 (reluT out3) edge
  let adpIn4 := reshapeI [n, g] (reluT out3)
  let adp4 := reshapeI [g] (linearT B.lin4W B.lin4B g (bmmB lm (dropoutT (mask 3) adpIn4)))
  let out4 := addT (mulT (reluT gout4) (sigmoidT adp4)) (mulT out3 (oneMinusT (sigmoidT adp4)))
  reshapeI [n, g] out4

/-- The spatial branch output (`output_list[1]`), fed the once-transformed `x`. -/
def STCell.spOut (cfg : Config) (L : Layers) (rng : ℕ → ℕ → ℝ)
    (edge : Tensor) (x : Tensor) : Tensor :=
  gatBranch cfg.num_nodes cfg.input_window cfg.graph_dim L.sp
    (fun k => rng k) edge (STCell.spInput cfg L x)

/-- The semantic (DTW) branch output (`output_list[2]`), fed the value of `x`
after both residual transforms. -/
def STCell.dtwOut (cfg : Config) (L : Layers) (rng : ℕ → ℕ → ℝ)
    (dtw : Tensor) (x : Tensor) : Tensor :=
  gatBranch cfg.num_nodes cfg.input_window cfg.graph_dim L.dtw
    (fun k => rng (4 + k)) dtw (STCell.dtwInput cfg L x)

/-- The selection loop at the end of `STCell.forward` (lines with the `step`
counter): the enabled entries of `output_list` are concatenated along
`dim=2` in index order; with no branch enabled, `cell_output` is never
assigned and the function fails (`NameError`), hence `none`. -/
def STCell.select (c : List ℕ) (o0 o1 o2 : Tensor) : Option Tensor :=
  let s1 : Option Tensor := if c.getD 0 0 = 1 then some o0 else none
  let s2 : Option Tensor :=
    if c.getD 1 0 = 1 then
      match s1 with
      | some t => some (cat2 t o1)
      | none => some o1
    else s1
  if c.getD 2 0 = 1 then
    match s2 with
    | some t => some (cat2 t o2)
    | none => some o2
  else s2

/-- `STCell.forward`: the three branch outputs, the selection loop, and the
final reshape to `(-1, self.output_dim)`. -/
def STCell.forward (cfg : Config) (L : Layers) (rng : ℕ → ℕ → ℝ)
    (edge dtw : Tensor) (x : Tensor) : Option Tensor :=
  (STCell.select cfg.choice (STCell.tBranch cfg L rng x)
      (STCell.spOut cfg L rng edge x) (STCell.dtwOut cfg L rng dtw x)).map
    (reshapeI [STCell.output_dim cfg])

/-- `STAGGCNModel.forward`: the `STCell` output followed by `output_linear`
(an `nn.Linear(np.sum(choice) * graph_dim, pred_len)`). -/
def STAGGCNModel.forward (cfg : Config) (L : Layers) (rng : ℕ → ℕ → ℝ)
    (edge dtw : Tensor) (x : Tensor) : Option Tensor :=
  (STCell.forward cfg L rng edge dtw x).map
    (linearT L.outW L.outB cfg.output_window)

/-- `STAGGCN.forward`: take `batch['X']`, keep feature channel 0, permute to
`(batch, node, time)`, flatten to `[batch*node_num, seq_len]`, run the inner
model, and reshape to `(batch_size, output_window, num_nodes, 1)` using the
batch size stored in the config at construction time (an element-count
mismatch there is a runtime error, hence `none`). -/
def STAGGCN.forward (cfg : Config) (L : Layers) (rng : ℕ → ℕ → ℝ)
    (batch : Batch) : Option Tensor :=
  let xp := permute021 (select3 batch.X)
  let x := reshapeI [xp.dim 2] xp
  match STAGGCNModel.forward cfg L rng cfg.edge_index cfg.dtw_edge_index x with
  | none => none
  | some out => reshapeE [cfg.batch_size, cfg.output_window, cfg.num_nodes, 1] out

/-- `STAGGCN.predict`: returns `self.forward(batch)` directly. -/
def STAGGCN.predict (cfg : Config) (L : Layers) (rng : ℕ → ℕ → ℝ)
    (batch : Batch) : Option Tensor :=
  STAGGCN.forward cfg L rng batch

open Classical in
/-- Modelled from the spec: `loss.masked_mae_torch`, the repository's
masked-MAE loss function (its module `trafficdl/model/loss.py` is not part
of the sources given): the mean absolute error of the predictions against
the labels over the entries whose label differs from the mask value. -/
def masked_mae_torch (preds labels : Tensor) (nullVal : ℝ) : ℝ :=
  let idx := (Finset.range labels.numel).filter (fun i => labels.data i ≠ nullVal)
  if idx.card = 0 then 0
  else (∑ i ∈ idx, |preds.data i - labels.data i|) / idx.card

/-- `STAGGCN.calculate_loss`: ground truth from `batch['y']`, prediction from
`self.predict(batch)`, both truncated to the first `output_dim` feature
channels and inverse-normalized by the external scaler, then compared with
`loss.masked_mae_torch(y_predicted, y_true, 0)`. -/
def STAGGCN.calculate_loss (cfg : Config) (L : Layers) (rng : ℕ → ℕ → ℝ)
    (batch : Batch) : Option ℝ :=
  let y_true := batch.y
  match STAGGCN.predict cfg L rng batch with
  | none => none
  | some y_predicted =>
      let yt := cfg.inverse_transform (sliceLast cfg.output_dim y_true)
      let yp := cfg.inverse_transform (sliceLast cfg.output_dim y_predicted)
      some (masked_mae_torch yp yt 0)

/-- `LearnedGCN.forward`: the learned adjacency matrix (with embedding inner
dimension 10) times the input, followed by the linear layer. -/
def LearnedGCN.forward (node_num outF : ℕ) (sourceE targetE : ℕ → ℕ → ℝ)
    (W : ℕ → ℕ → ℝ) (B : ℕ → ℝ) (input : Tensor) : Tensor :=
  let lm := learnedMatrix node_num 10 sourceE targetE
  linearT W B outF (mmTT lm input)

/-- Shape contracts of the external `GATConv` layers of one branch: a
`GATConv(inF, graph_dim, concat=False)` maps `[N, inF]` node features to
`[N, graph_dim]`. -/
structure GatShapesOk (g : ℕ) (B : GatBranchLayers) : Prop where
  g1 : ∀ t e, (B.gconv1 t e).shape = [t.dim 0, g]
  g2 : ∀ t e, (B.gconv2 t e).shape = [t.dim 0, g]
  g3 : ∀ t e, (B.gconv3 t e).shape = [t.dim 0, g]
  g4 : ∀ t e, (B.gconv4 t e).shape = [t.dim 0, g]

/-- Shape contracts of the external library layers used by `STCell`:
`nn.MultiheadAttention` preserves the shape of its (query) input, the TCN
maps `[N, 1, T]` to `[N, tcn_dim[-1], T]`, and the eight `GATConv` layers
behave per `GatShapesOk`. -/
structure ShapesOk (cfg : Config) (L : Layers) : Prop where
  atten : ∀ t, (L.self_atten t).shape = t.shape
  tcn : ∀ r t, (L.tcn r t).shape = [t.dim 0, cfg.tcnLast, t.dim 2]
  sp : GatShapesOk cfg.graph_dim L.sp
  dtw : GatShapesOk cfg.graph_dim L.dtw

/-- Follows the spec claim wording: the concatenation along the feature
dimension, in the fixed order temporal/spatial/semantic, of exactly the
branch outputs whose entry in the choice vector is 1 (`none` when no entry
is 1). -/
def enabledConcat (c : List ℕ) (o0 o1 o2 : Tensor) : Option Tensor :=
  let l := (if c.getD 0 0 = 1 then [o0] else [])
    ++ (if c.getD 1 0 = 1 then [o1] else [])
    ++ (if c.getD 2 0 = 1 then [o2] else [])
  match l with
  | [] => none
  | h :: t => some (t.foldl cat2 h)

/-- A concrete one-node, one-step configuration used to evaluate the model
on explicit inputs. -/
def exCfg : Config :=
  { num_nodes := 1
    feature_dim := 1
    output_dim := 1
    input_window := 1
    output_window := 1
    graph_dim := 1
    tcn_dim := [1]
    choice := [1, 1, 1]
    batch_size := 1
    inverse_transform := id
    edge_index := ⟨[2, 0], fun _ => 0⟩
    dtw_edge_index := ⟨[2, 0], fun _ => 0⟩ }

/-- Concrete branch layers whose graph convolutions return zero tensors of
the contractual `[N, graph_dim]` shape. -/
def exGat : GatBranchLayers :=
  { originW := fun _ _ => 0
    originB := fun _ => 0
    gconv1 := fun t _ => ⟨[t.dim 0, 1], fun _ => 0⟩
    gconv2 := fun t _ => ⟨[t.dim 0, 1], fun _ => 0⟩
    gconv3 := fun t _ => ⟨[t.dim 0, 1], fun _ => 0⟩
    gconv4 := fun t _ => ⟨[t.dim 0, 1], fun _ => 0⟩
    sourceEmbed := fun _ _ => 0
    targetEmbed := fun _ _ => 0
    lin1W := fun _ _ => 0
    lin1B := fun _ => 0
    lin2W := fun _ _ => 0
    lin2B := fun _ => 0
    lin3W := fun _ _ => 0
    lin3B := fun _ => 0
    lin4W := fun _ _ => 0
    lin4B := fun _ => 0 }

/-- Concrete model layers: identity attention, a zero TCN of the
contractual shape, identity-weight sequence linear. -/
def exLayers : Layers :=
  { seqW := fun _ _ => 1
    seqB := fun _ => 0
    self_atten := id
    tcn := fun _ t => ⟨[t.dim 0, 1, t.dim 2], fun _ => 0⟩
    tlinW := fun _ _ => 0
    tlinB := fun _ => 0
    sp := exGat
    dtw := exGat
    outW := fun _ _ => 0
    outB := fun _ => 0 }

/-- A concrete constant-1 random state. -/
def exRng : ℕ → ℕ → ℝ := fun _ _ => 1

/-- A concrete `[1, 1]` node-feature tensor with value 1. -/
def exX : Tensor := ⟨[1, 1], fun _ => 1⟩

/-- A concrete batch of the configured batch size 1. -/
def exBatch : Batch := ⟨⟨[1, 1, 1, 1], fun _ => 1⟩, ⟨[1, 1, 1, 1], fun _ => 1⟩⟩

/-- A concrete batch whose leading dimension 2 differs from the configured
batch size 1. -/
def exBatch2 : Batch := ⟨⟨[2, 1, 1, 1], fun _ => 1⟩, ⟨[2, 1, 1, 1], fun _ => 1⟩⟩

/-! The TCN (`Chomp1d`, `TemporalBlock`, `TemporalConvNet`) acts on
`(batch*node, channel, time)` tensors; the batch entries are processed
independently, so one batch entry is embedded: a multi-channel signal with
a temporal length. -/

/-- A multi-channel 1-d signal: a temporal length and values indexed by
(channel, position). -/
structure Sig where
  len : ℕ
  val : ℕ → ℕ → ℝ

/-- Zero padding of `p` positions on both ends of a length-`L` signal. -/
def padVal (p L : ℕ) (x : ℕ → ℕ → ℝ) (c u : ℕ) : ℝ :=
  if p ≤ u ∧ u < L + p then x c (u - p) else 0

/-- `nn.Conv1d(Cin, Cout, k, stride=1, padding=p, dilation=d)` on a
length-`L` input (`weight_norm` only reparametrizes the weight, so `W` is
the effective convolution weight). -/
def conv1d (Cin k d p L : ℕ) (W : ℕ → ℕ → ℕ → ℝ) (B : ℕ → ℝ)
    (x : ℕ → ℕ → ℝ) : ℕ → ℕ → ℝ :=
  fun c t =>
    B c + ∑ ci ∈ Finset.range Cin, ∑ j ∈ Finset.range k,
      W c ci j * padVal p L x ci (t + j * d)

/-- Output length of a stride-1 `nn.Conv1d` with padding `p`, dilation `d`. -/
def convOutLen (L k d p : ℕ) : ℕ := L + 2 * p - d * (k - 1)

/-- `nn.Conv1d` as a signal transformer. -/
def convS (Cin k d p : ℕ) (W : ℕ → ℕ → ℕ → ℝ) (B : ℕ → ℝ) (s : Sig) : Sig :=
  ⟨convOutLen s.len k d p, conv1d Cin k d p s.len W B s.val⟩

/-- `Chomp1d.forward`, the slice `x[:, :, :-chomp_size]`: drops the last
`chomp_size` positions (a python slice with `-0` yields the empty signal). -/
def chompS (p : ℕ) (s : Sig) : Sig :=
  ⟨if p = 0 then 0 else s.len - p, s.val⟩

/-- `nn.ReLU` on a signal. -/
def reluS (s : Sig) : Sig := ⟨s.len, fun c t => max (s.val c t) 0⟩

/-- An `nn.Dropout` call on a signal, driven by the RNG mask of that call. -/
def dropoutS (m : ℕ → ℕ → ℝ) (s : Sig) : Sig :=
  ⟨s.len, fun c t => m c t * s.val c t⟩

/-- Elementwise sum of two signals (`out + res`). -/
def addS (a b : Sig) : Sig := ⟨a.len, fun c t => a.val c t + b.val c t⟩

/-- Effective weights of one `TemporalBlock`: the two dilated convolutions
and the optional 1x1 downsample convolution. -/
structure TBParams where
  W1 : ℕ → ℕ → ℕ → ℝ
  B1 : ℕ → ℝ
  W2 : ℕ → ℕ → ℕ → ℝ
  B2 : ℕ → ℝ
  Wd : ℕ → ℕ → ℕ → ℝ
  Bd : ℕ → ℝ

/-- The `self.net` pipeline of `TemporalBlock`: conv1, chomp1, relu1,
dropout1, conv2, chomp2, relu2, dropout2. -/
def tbNet (nIn nOut k d p : ℕ) (P : TBParams) (m1 m2 : ℕ → ℕ → ℝ)
    (x : Sig) : Sig :=
  dropoutS m2 (reluS (chompS p (convS nOut k d p P.W2 P.B2
    (dropoutS m1 (reluS (chompS p (convS nIn k d p P.W1 P.B1 x)))))))

/-- The residual path of `TemporalBlock`: identity when the channel counts
agree, otherwise the 1x1 downsample convolution. -/
def tbRes (nIn nOut : ℕ) (P : TBParams) (x : Sig) : Sig :=
  if nIn = nOut then x else convS nIn 1 1 0 P.Wd P.Bd x

/-- `TemporalBlock.forward`: `self.relu(self.net(x) + res)`. -/
def temporalBlock (nIn nOut k d p : ℕ) (P : TBParams) (m1 m2 : ℕ → ℕ → ℝ)
    (x : Sig) : Sig :=
  reluS (addS (tbNet nIn nOut k d p P m1 m2 x) (tbRes nIn nOut P x))

/-- `TemporalConvNet`: level `i` of the stack is a `TemporalBlock` with
dilation `2 ^ i`, padding `(kernel_size - 1) * 2 ^ i`, input channels
`num_inputs` at level 0 and `num_channels[i-1]` above, output channels
`num_channels[i]`.  `Ps i` are the weights of level `i` and `ms` supplies
the dropout masks (two per level). -/
def temporalConvNet (numInputs : ℕ) (numChannels : List ℕ) (k : ℕ)
    (Ps : ℕ → TBParams) (ms : ℕ → ℕ → ℕ → ℝ) (x : Sig) : Sig :=
  (List.range numChannels.length).foldl
    (fun s i =>
      temporalBlock (if i = 0 then numInputs else numChannels.getD (i - 1) 0)
        (numChannels.getD i 0) k (2 ^ i) ((k - 1) * 2 ^ i) (Ps i)
        (ms (2 * i)) (ms (2 * i + 1)) s)
    x

/-! Lemmas about the TCN embedding. -/

/-- A dilated convolution whose padding dominates `(k - 1) * d` is causal:
its value at position `t` only reads input positions `≤ t`. -/
lemma conv1d_causal (Cin k d p L : ℕ) (W : ℕ → ℕ → ℕ → ℝ) (B : ℕ → ℝ)
    (x y : ℕ → ℕ → ℝ) (t : ℕ) (hk : (k - 1) * d ≤ p)
    (h : ∀ c s, s ≤ t → x c s = y c s) :
    ∀ c, conv1d Cin k d p L W B x c t = conv1d Cin k d p L W B y c t := by
  intro c
  unfold conv1d
  congr 1
  apply Finset.sum_congr rfl
  intro ci _
  apply Finset.sum_congr rfl
  intro j hj
  have hjk : j ≤ k - 1 := by have := Finset.mem_range.mp hj; omega
  have hjd : j * d ≤ p := le_trans (Nat.mul_le_mul_right d hjk) hk
  unfold padVal
  split_ifs with hpad
  · rw [h ci (t + j * d - p) (by omega)]
  · rfl

/-- Causality propagation through `convS`. -/
lemma convS_agree (Cin k d p : ℕ) (W : ℕ → ℕ → ℕ → ℝ) (B : ℕ → ℝ)
    (x y : Sig) (t : ℕ) (hk : (k - 1) * d ≤ p) (hlen : x.len = y.len)
    (h : ∀ c s, s ≤ t → x.val c s = y.val c s) :
    ∀ c s, s ≤ t → (convS Cin k d p W B x).val c s = (convS Cin k d p W B y).val c s := by
  intro c s hs
  show conv1d Cin k d p x.len W B x.val c s = conv1d Cin k d p y.len W B y.val c s
  rw [← hlen]
  exact conv1d_causal Cin k d p x.len W B x.val y.val s hk
    (fun c2 u hu => h c2 u (hu.trans hs)) c

/-- Causality propagation through `reluS`. -/
lemma reluS_agree (x y : Sig) (t : ℕ)
    (h : ∀ c s, s ≤ t → x.val c s = y.val c s) :
    ∀ c s, s ≤ t → (reluS x).val c s = (reluS y).val c s := by
  intro c s hs
  show max (x.val c s) 0 = max (y.val c s) 0
  rw [h c s hs]

/-- Causality propagation through `dropoutS`. -/
lemma dropoutS_agree (m : ℕ → ℕ → ℝ) (x y : Sig) (t : ℕ)
    (h : ∀ c s, s ≤ t → x.val c s = y.val c s) :
    ∀ c s, s ≤ t → (dropoutS m x).val c s = (dropoutS m y).val c s := by
  intro c s hs
  show m c s * x.val c s = m c s * y.val c s
  rw [h c s hs]

/-- Causality propagation through the `self.net` pipeline of a block. -/
lemma tbNet_agree (nIn nOut k d p : ℕ) (P : TBParams) (m1 m2 : ℕ → ℕ → ℝ)
    (x y : Sig) (t : ℕ) (hk : (k - 1) * d ≤ p) (hlen : x.len = y.len)
    (h : ∀ c s, s ≤ t → x.val c s = y.val c s) :
    ∀ c s, s ≤ t → (tbNet nIn nOut k d p P m1 m2 x).val c s
      = (tbNet nIn nOut k d p P m1 m2 y).val c s := by
  have a1 := convS_agree nIn k d p P.W1 P.B1 x y t hk hlen h
  have a2 := reluS_agree (chompS p (convS nIn k d p P.W1 P.B1 x))
    (chompS p (convS nIn k d p P.W1 P.B1 y)) t a1
  have a3 := dropoutS_agree m1 _ _ t a2
  have l3 : (dropoutS m1 (reluS (chompS p (convS nIn k d p P.W1 P.B1 x)))).len
      = (dropoutS m1 (reluS (chompS p (convS nIn k d p P.W1 P.B1 y)))).len := by
    simp only [dropoutS, reluS, chompS, convS, convOutLen, hlen]
  have a4 := convS_agree nOut k d p P.W2 P.B2 _ _ t hk l3 a3
  have a5 := reluS_agree (chompS p (convS nOut k d p P.W2 P.B2
      (dropoutS m1 (reluS (chompS p (convS nIn k d p P.W1 P.B1 x))))))
    (chompS p (convS nOut k d p P.W2 P.B2
      (dropoutS m1 (reluS (chompS p (convS nIn k d p P.W1 P.B1 y)))))) t a4
  exact dropoutS_agree m2 _ _ t a5

/-- Causality propagation through the residual path. -/
lemma tbRes_agree (nIn nOut : ℕ) (P : TBParams) (x y : Sig) (t : ℕ)
    (hlen : x.len = y.len) (h : ∀ c s, s ≤ t → x.val c s = y.val c s) :
    ∀ c s, s ≤ t → (tbRes nIn nOut P x).val c s = (tbRes nIn nOut P y).val c s := by
  intro c s hs
  unfold tbRes
  split_ifs with hch
  · exact h c s hs
  · exact convS_agree nIn 1 1 0 P.Wd P.Bd x y t (by omega) hlen h c s hs

/-- A `TemporalBlock` is causal: with padding `(k - 1) * dilation`, the
output at position `t` depends only on input positions `≤ t`. -/
lemma temporalBlock_causal (nIn nOut k d p : ℕ) (P : TBParams)
    (m1 m2 : ℕ → ℕ → ℝ) (x y : Sig) (t : ℕ) (hp : p = (k - 1) * d)
    (hlen : x.len = y.len) (h : ∀ c s, s ≤ t → x.val c s = y.val c s) :
    ∀ c, (temporalBlock nIn nOut k d p P m1 m2 x).val c t
      = (temporalBlock nIn nOut k d p P m1 m2 y).val c t := by
  intro c
  have hk : (k - 1) * d ≤ p := le_of_eq hp.symm
  have hnet := tbNet_agree nIn nOut k d p P m1 m2 x y t hk hlen h c t le_rfl
  have hres := tbRes_agree nIn nOut P x y t hlen h c t le_rfl
  show max ((tbNet nIn nOut k d p P m1 m2 x).val c t + (tbRes nIn nOut P x).val c t) 0
    = max ((tbNet nIn nOut k d p P m1 m2 y).val c t + (tbRes nIn nOut P y).val c t) 0
  rw [hnet, hres]

/-- A `TemporalBlock` with positive padding `(k - 1) * dilation` preserves
the temporal length: the convolutions each lengthen by `p` and the chomps
remove the same amount. -/
lemma temporalBlock_len (nIn nOut k d p : ℕ) (P : TBParams)
    (m1 m2 : ℕ → ℕ → ℝ) (x : Sig) (hp : p = (k - 1) * d) (hpos : 0 < p) :
    (temporalBlock nIn nOut k d p P m1 m2 x).len = x.len := by
  have hd : d * (k - 1) = p := by rw [hp]; ring
  have hp0 : ¬p = 0 := by omega
  show (tbNet nIn nOut k d p P m1 m2 x).len = x.len
  simp only [tbNet, dropoutS, reluS, chompS, convS, convOutLen, hd, hp0, if_false]
  omega

/-- The whole `TemporalConvNet` stack preserves the temporal length (its
blocks have padding `(kernel_size - 1) * 2 ^ i > 0` when `kernel_size ≥ 2`). -/
lemma temporalConvNet_len (numInputs : ℕ) (numChannels : List ℕ) (k : ℕ)
    (Ps : ℕ → TBParams) (ms : ℕ → ℕ → ℕ → ℝ) (x : Sig) (hk : 2 ≤ k) :
    (temporalConvNet numInputs numChannels k Ps ms x).len = x.len := by
  unfold temporalConvNet
  generalize List.range numChannels.length = l
  induction l generalizing x with
  | nil => rfl
  | cons i l ih =>
      simp only [List.foldl_cons]
      rw [ih]
      exact temporalBlock_len _ _ k (2 ^ i) ((k - 1) * 2 ^ i) _ _ _ x rfl
        (Nat.mul_pos (by omega) (Nat.pos_pow_of_pos i (by omega)))

/-! Lemmas about the learned adaptive adjacency matrix. -/

/-- Every entry of the learned adjacency matrix is non-negative. -/
lemma learnedMatrix_nonneg (n k : ℕ) (S Tg : ℕ → ℕ → ℝ) (i : ℕ) :
    0 ≤ (learnedMatrix n k S Tg).data i := by
  simp only [learnedMatrix, softmaxRows]
  exact div_nonneg (Real.exp_pos _).le
    (Finset.sum_nonneg fun c _ => (Real.exp_pos _).le)

/-- Every row of the learned adjacency matrix sums to 1. -/
lemma learnedMatrix_rowsum (n k : ℕ) (S Tg : ℕ → ℕ → ℝ) (hn : 0 < n) (r : ℕ) :
    ∑ c ∈ Finset.range n, (learnedMatrix n k S Tg).data (r * n + c) = 1 := by
  have hdim : (reluT (mm2 n k n S Tg)).dim 1 = n := rfl
  have hterm : ∀ c ∈ Finset.range n, (learnedMatrix n k S Tg).data (r * n + c)
      = Real.exp ((reluT (mm2 n k n S Tg)).data (r * n + c)) /
        ∑ c2 ∈ Finset.range n,
          Real.exp ((reluT (mm2 n k n S Tg)).data (r * n + c2)) := by
    intro c hc
    have hc2 : c < n := Finset.mem_range.mp hc
    have hdiv : (r * n + c) / n = r := by
      have he : r * n + c = c + n * r := by ring
      rw [he, Nat.add_mul_div_left c r hn, Nat.div_eq_of_lt hc2, zero_add]
    simp only [learnedMatrix, softmaxRows, hdim, hdiv]
  rw [Finset.sum_congr rfl hterm, ← Finset.sum_div]
  exact div_self (ne_of_gt (Finset.sum_pos (fun c _ => Real.exp_pos _)
    (Finset.nonempty_range_iff.mpr (by omega))))

/-! Shape lemmas for the tensor operations. -/

lemma mapT_shape (f : ℝ → ℝ) (t : Tensor) : (mapT f t).shape = t.shape := rfl

lemma addT_shape (a b : Tensor) : (addT a b).shape = a.shape := rfl

lemma mulT_shape (a b : Tensor) : (mulT a b).shape = a.shape := rfl

lemma dropoutT_shape (m : ℕ → ℝ) (t : Tensor) : (dropoutT m t).shape = t.shape := rfl

lemma bmmB_shape (M t : Tensor) : (bmmB M t).shape = t.shape := rfl

lemma reshapeI_shape (rest : List ℕ) (t : Tensor) :
    (reshapeI rest t).shape = (t.numel / rest.prod) :: rest := rfl

lemma linearT_shape (W : ℕ → ℕ → ℝ) (B : ℕ → ℝ) (o : ℕ) (t : Tensor) :
    (linearT W B o t).shape = t.shape.dropLast ++ [o] := rfl

lemma unsqueeze1_shape (t : Tensor) :
    (unsqueeze1 t).shape = [t.dim 0, 1, t.dim 1] := rfl

lemma permute021_shape (t : Tensor) :
    (permute021 t).shape = [t.dim 0, t.dim 2, t.dim 1] := rfl

lemma permute201_shape (t : Tensor) :
    (permute201 t).shape = [t.dim 2, t.dim 0, t.dim 1] := rfl

lemma permute120_shape (t : Tensor) :
    (permute120 t).shape = [t.dim 1, t.dim 2, t.dim 0] := rfl

lemma select3_shape (t : Tensor) :
    (select3 t).shape = [t.dim 0, t.dim 1, t.dim 2] := rfl

lemma cat2_shape (a b : Tensor) :
    (cat2 a b).shape = [a.dim 0, a.dim 1, a.dim 2 + b.dim 2] := rfl

lemma dim_of_shape (t : Tensor) (s : List ℕ) (i : ℕ) (h : t.shape = s) :
    t.dim i = s.getD i 0 := by rw [Tensor.dim, h]

lemma numel_of_shape (t : Tensor) (s : List ℕ) (h : t.shape = s) :
    t.numel = s.prod := by rw [Tensor.numel, h]

/-- Output shape of a graph-attention branch on a `[b*n, T]` input. -/
lemma gatBranch_shape (n T g b : ℕ) (B : GatBranchLayers) (mask : ℕ → ℕ → ℝ)
    (edge x : Tensor) (hB : GatShapesOk g B) (hx : x.shape = [b * n, T])
    (hn : 0 < n) (hg : 0 < g) :
    (gatBranch n T g B mask edge x).shape = [b, n, g] := by
  simp only [gatBranch, Tensor.numel, Tensor.dim, addT_shape, mulT_shape,
    mapT_shape, tanhT, sigmoidT, reluT, leakyReluT, oneMinusT, dropoutT_shape,
    bmmB_shape, reshapeI_shape, linearT_shape, hB.g1, hB.g2, hB.g3, hB.g4, hx,
    List.getD_cons_zero, List.getD_cons_succ, List.prod_cons, List.prod_nil,
    mul_one]
  rw [mul_assoc, Nat.mul_div_cancel b (Nat.mul_pos hn hg)]

/-- Output shape of the temporal branch on a `[b*n, T]` input. -/
lemma tBranch_shape (cfg : Config) (L : Layers) (rng : ℕ → ℕ → ℝ) (x : Tensor)
    (b : ℕ) (hok : ShapesOk cfg L)
    (hx : x.shape = [b * cfg.num_nodes, cfg.input_window])
    (hn : 0 < cfg.num_nodes) (hT : 0 < cfg.input_window)
    (hg : 0 < cfg.graph_dim) (htl : 0 < cfg.tcnLast) :
    (STCell.tBranch cfg L rng x).shape = [b, cfg.num_nodes, cfg.graph_dim] := by
  set n := cfg.num_nodes
  set T := cfg.input_window
  set g := cfg.graph_dim
  set tl := cfg.tcnLast
  have hd1 : b * n * T / (n * T) = b := by
    rw [mul_assoc]; exact Nat.mul_div_cancel b (Nat.mul_pos hn hT)
  have hd2 : b * (n * T) / T = b * n := by
    rw [← mul_assoc]; exact Nat.mul_div_cancel (b * n) hT
  have hd3 : b * n * (tl * T) / (tl * T) = b * n :=
    Nat.mul_div_cancel (b * n) (Nat.mul_pos htl hT)
  have hd4 : b * n * g / (n * g) = b := by
    rw [mul_assoc]; exact Nat.mul_div_cancel b (Nat.mul_pos hn hg)
  simp only [STCell.tBranch, Tensor.numel, Tensor.dim, addT_shape, mapT_shape,
    tanhT, reshapeI_shape, linearT_shape, unsqueeze1_shape, permute201_shape,
    permute120_shape, hok.atten, hok.tcn, hx, List.getD_cons_zero,
    List.getD_cons_succ, List.prod_cons, List.prod_nil, mul_one, hd1, hd2,
    hd3, hd4, List.dropLast_cons₂, List.dropLast_single, List.cons_append,
    List.nil_append]

/-- The residual sequence transform preserves a `[M, seq_len]` shape. -/
lemma seqTransform_shape (cfg : Config) (L : Layers) (x : Tensor) (M : ℕ)
    (hx : x.shape = [M, cfg.input_window]) :
    (STCell.seqTransform cfg L x).shape = [M, cfg.input_window] := by
  simp only [STCell.seqTransform, addT_shape, linearT_shape, hx,
    List.dropLast_cons₂, List.dropLast_single, List.cons_append,
    List.nil_append]

/-- The spatial branch input keeps the `[M, seq_len]` shape. -/
lemma spInput_shape (cfg : Config) (L : Layers) (x : Tensor) (M : ℕ)
    (hx : x.shape = [M, cfg.input_window]) :
    (STCell.spInput cfg L x).shape = [M, cfg.input_window] := by
  unfold STCell.spInput
  split_ifs
  · exact seqTransform_shape cfg L x M hx
  · exact hx

/-- The semantic branch input keeps the `[M, seq_len]` shape. -/
lemma dtwInput_shape (cfg : Config) (L : Layers) (x : Tensor) (M : ℕ)
    (hx : x.shape = [M, cfg.input_window]) :
    (STCell.dtwInput cfg L x).shape = [M, cfg.input_window] := by
  unfold STCell.dtwInput
  split_ifs
  · exact seqTransform_shape cfg L _ M (spInput_shape cfg L x M hx)
  · exact spInput_shape cfg L x M hx

/-- Shape of the final `(-1, S * g)` reshape of a `[b, n, K]` tensor with
`K = S * g`. -/
lemma reshape_sg (b n g K S : ℕ) (y : Tensor) (hy : y.shape = [b, n, K])
    (hK : K = S * g) (hpos : 0 < S * g) :
    (reshapeI [S * g] y).shape = [b * n, S * g] := by
  simp only [reshapeI_shape, numel_of_shape y _ hy, List.prod_cons,
    List.prod_nil, mul_one, hK]
  have he : b * (n * (S * g)) = b * n * (S * g) := by ring
  rw [he, Nat.mul_div_cancel _ hpos]

/-- `STCell.forward` on a `[b*n, seq_len]` input succeeds (some branch is
enabled) and returns a `[b*n, sum(choice)*graph_dim]` tensor. -/
lemma STCell_forward_shape (cfg : Config) (L : Layers) (rng : ℕ → ℕ → ℝ)
    (edge dtw x : Tensor) (b c0 c1 c2 : ℕ)
    (hok : ShapesOk cfg L) (hch : cfg.choice = [c0, c1, c2])
    (h0 : c0 = 0 ∨ c0 = 1) (h1 : c1 = 0 ∨ c1 = 1) (h2 : c2 = 0 ∨ c2 = 1)
    (hne : c0 = 1 ∨ c1 = 1 ∨ c2 = 1)
    (hx : x.shape = [b * cfg.num_nodes, cfg.input_window])
    (hn : 0 < cfg.num_nodes) (hT : 0 < cfg.input_window)
    (hg : 0 < cfg.graph_dim) (htl : 0 < cfg.tcnLast) :
    ∃ st, STCell.forward cfg L rng edge dtw x = some st ∧
      st.shape = [b * cfg.num_nodes, (c0 + c1 + c2) * cfg.graph_dim] := by
  have ht := tBranch_shape cfg L rng x b hok hx hn hT hg htl
  have hsp : (STCell.spOut cfg L rng edge x).shape
      = [b, cfg.num_nodes, cfg.graph_dim] :=
    gatBranch_shape cfg.num_nodes cfg.input_window cfg.graph_dim b L.sp _ edge _
      hok.sp (spInput_shape cfg L x _ hx) hn hg
  have hdtw : (STCell.dtwOut cfg L rng dtw x).shape
      = [b, cfg.num_nodes, cfg.graph_dim] :=
    gatBranch_shape cfg.num_nodes cfg.input_window cfg.graph_dim b L.dtw _ dtw _
      hok.dtw (dtwInput_shape cfg L x _ hx) hn hg
  have hsum : STCell.output_dim cfg = (c0 + c1 + c2) * cfg.graph_dim := by
    simp only [STCell.output_dim, hch, List.sum_cons, List.sum_nil]
    ring
  have hpos : 0 < (c0 + c1 + c2) * cfg.graph_dim :=
    Nat.mul_pos (by omega) hg
  have hgd0 : cfg.choice.getD 0 0 = c0 := by rw [hch]; rfl
  have hgd1 : cfg.choice.getD 1 0 = c1 := by rw [hch]; rfl
  have hgd2 : cfg.choice.getD 2 0 = c2 := by rw [hch]; rfl
  unfold STCell.forward STCell.select
  rw [hsum]
  rcases h0 with rfl | rfl <;> rcases h1 with rfl | rfl <;> rcases h2 with rfl | rfl
  · omega
  · -- choice = [0, 0, 1]
    simp only [hgd0, hgd1, hgd2, if_neg (by omega : ¬(0 : ℕ) = 1),
      if_pos rfl, Option.map_some']
    refine ⟨_, rfl, ?_⟩
    exact reshape_sg b cfg.num_nodes cfg.graph_dim _ _ _ hdtw (by ring) hpos
  · -- choice = [0, 1, 0]
    simp only [hgd0, hgd1, hgd2, if_neg (by omega : ¬(0 : ℕ) = 1),
      if_pos rfl, Option.map_some']
    refine ⟨_, rfl, ?_⟩
    exact reshape_sg b cfg.num_nodes cfg.graph_dim _ _ _ hsp (by ring) hpos
  · -- choice = [0, 1, 1]
    simp only [hgd0, hgd1, hgd2, if_neg (by omega : ¬(0 : ℕ) = 1),
      if_pos rfl, Option.map_some']
    refine ⟨_, rfl, ?_⟩
    have hy : (cat2 (STCell.spOut cfg L rng edge x)
        (STCell.dtwOut cfg L rng dtw x)).shape
        = [b, cfg.num_nodes, cfg.graph_dim + cfg.graph_dim] := by
      simp only [cat2_shape, dim_of_shape _ _ _ hsp, dim_of_shape _ _ _ hdtw,
        List.getD_cons_zero, List.getD_cons_succ]
    exact reshape_sg b cfg.num_nodes cfg.graph_dim _ _ _ hy (by ring) hpos
  · -- choice = [1, 0, 0]
    simp only [hgd0, hgd1, hgd2, if_neg (by omega : ¬(0 : ℕ) = 1),
      if_pos rfl, Option.map_some']
    refine ⟨_, rfl, ?_⟩
    exact reshape_sg b cfg.num_nodes cfg.graph_dim _ _ _ ht (by ring) hpos
  · -- choice = [1, 0, 1]
    simp only [hgd0, hgd1, hgd2, if_neg (by omega : ¬(0 : ℕ) = 1),
      if_pos rfl, Option.map_some']
    refine ⟨_, rfl, ?_⟩
    have hy : (cat2 (STCell.tBranch cfg L rng x)
        (STCell.dtwOut cfg L rng dtw x)).shape
        = [b, cfg.num_nodes, cfg.graph_dim + cfg.graph_dim] := by
      simp only [cat2_shape, dim_of_shape _ _ _ ht, dim_of_shape _ _ _ hdtw,
        List.getD_cons_zero, List.getD_cons_succ]
    exact reshape_sg b cfg.num_nodes cfg.graph_dim _ _ _ hy (by ring) hpos
  · -- choice = [1, 1, 0]
    simp only [hgd0, hgd1, hgd2, if_neg (by omega : ¬(0 : ℕ) = 1),
      if_pos rfl, Option.map_some']
    refine ⟨_, rfl, ?_⟩
    have hy : (cat2 (STCell.tBranch cfg L rng x)
        (STCell.spOut cfg L rng edge x)).shape
        = [b, cfg.num_nodes, cfg.graph_dim + cfg.graph_dim] := by
      simp only [cat2_shape, dim_of_shape _ _ _ ht, dim_of_shape _ _ _ hsp,
        List.getD_cons_zero, List.getD_cons_succ]
    exact reshape_sg b cfg.num_nodes cfg.graph_dim _ _ _ hy (by ring) hpos
  · -- choice = [1, 1, 1]
    simp only [hgd0, hgd1, hgd2, if_pos rfl, Option.map_some']
    refine ⟨_, rfl, ?_⟩
    have hy1 : (cat2 (STCell.tBranch cfg L rng x)
        (STCell.spOut cfg L rng edge x)).shape
        = [b, cfg.num_nodes, cfg.graph_dim + cfg.graph_dim] := by
      simp only [cat2_shape, dim_of_shape _ _ _ ht, dim_of_shape _ _ _ hsp,
        List.getD_cons_zero, List.getD_cons_succ]
    have hy : (cat2 (cat2 (STCell.tBranch cfg L rng x)
        (STCell.spOut cfg L rng edge x)) (STCell.dtwOut cfg L rng dtw x)).shape
        = [b, cfg.num_nodes, cfg.graph_dim + cfg.graph_dim + cfg.graph_dim] := by
      simp only [cat2_shape, dim_of_shape _ _ _ hy1, dim_of_shape _ _ _ hdtw,
        List.getD_cons_zero, List.getD_cons_succ]
    exact reshape_sg b cfg.num_nodes cfg.graph_dim _ _ _ hy (by ring) hpos

/-- `STAGGCNModel.forward` on a `[b*n, seq_len]` input succeeds and returns
a `[b*n, pred_len]` tensor. -/
lemma model_forward_shape (cfg : Config) (L : Layers) (rng : ℕ → ℕ → ℝ)
    (edge dtw x : Tensor) (b c0 c1 c2 : ℕ)
    (hok : ShapesOk cfg L) (hch : cfg.choice = [c0, c1, c2])
    (h0 : c0 = 0 ∨ c0 = 1) (h1 : c1 = 0 ∨ c1 = 1) (h2 : c2 = 0 ∨ c2 = 1)
    (hne : c0 = 1 ∨ c1 = 1 ∨ c2 = 1)
    (hx : x.shape = [b * cfg.num_nodes, cfg.input_window])
    (hn : 0 < cfg.num_nodes) (hT : 0 < cfg.input_window)
    (hg : 0 < cfg.graph_dim) (htl : 0 < cfg.tcnLast) :
    ∃ out, STAGGCNModel.forward cfg L rng edge dtw x = some out ∧
      out.shape = [b * cfg.num_nodes, cfg.output_window] := by
  obtain ⟨st, hst, hsh⟩ := STCell_forward_shape cfg L rng edge dtw x b c0 c1 c2
    hok hch h0 h1 h2 hne hx hn hT hg htl
  refine ⟨linearT L.outW L.outB cfg.output_window st, ?_, ?_⟩
  · simp only [STAGGCNModel.forward, hst, Option.map_some']
  · simp only [linearT_shape, hsh, List.dropLast_cons₂, List.dropLast_single,
      List.cons_append, List.nil_append]

/-- The input pipeline of `STAGGCN.forward` (channel-0 slice, permutation,
flatten) turns a `[b, input_window, num_nodes, feature_dim]` batch into a
`[b*num_nodes, input_window]` tensor. -/
lemma forward_x_shape (cfg : Config) (batch : Batch) (b : ℕ)
    (hX : batch.X.shape
      = [b, cfg.input_window, cfg.num_nodes, cfg.feature_dim])
    (hT : 0 < cfg.input_window) :
    (reshapeI [(permute021 (select3 batch.X)).dim 2]
      (permute021 (select3 batch.X))).shape
      = [b * cfg.num_nodes, cfg.input_window] := by
  have hsel : (select3 batch.X).shape
      = [b, cfg.input_window, cfg.num_nodes] := by
    simp only [select3_shape, dim_of_shape _ _ _ hX, List.getD_cons_zero,
      List.getD_cons_succ]
  have hperm : (permute021 (select3 batch.X)).shape
      = [b, cfg.num_nodes, cfg.input_window] := by
    simp only [permute021_shape, dim_of_shape _ _ _ hsel, List.getD_cons_zero,
      List.getD_cons_succ]
  have hdim2 : (permute021 (select3 batch.X)).dim 2 = cfg.input_window := by
    simp only [dim_of_shape _ _ _ hperm, List.getD_cons_zero,
      List.getD_cons_succ]
  rw [hdim2]
  simp only [reshapeI_shape, numel_of_shape _ _ hperm, List.prod_cons,
    List.prod_nil, mul_one]
  have he : b * (cfg.num_nodes * cfg.input_window)
      = b * cfg.num_nodes * cfg.input_window := by ring
  rw [he, Nat.mul_div_cancel _ hT]

/-- The selection loop of `STCell.forward` computes the concatenation, in
fixed order, of exactly the enabled branch outputs. -/
lemma select_eq_enabledConcat (c : List ℕ) (o0 o1 o2 : Tensor) :
    STCell.select c o0 o1 o2 = enabledConcat c o0 o1 o2 := by
  unfold STCell.select enabledConcat
  by_cases hc0 : c.getD 0 0 = 1 <;> by_cases hc1 : c.getD 1 0 = 1 <;>
    by_cases hc2 : c.getD 2 0 = 1 <;>
    simp only [hc0, hc1, hc2, eq_self_iff_true, if_true, if_false,
      List.nil_append, List.append_nil, List.cons_append, List.foldl_cons,
      List.foldl_nil]

lemma lastDim_of_shape2 (t : Tensor) (a c : ℕ) (h : t.shape = [a, c]) :
    t.lastDim = c := by rw [Tensor.lastDim, h]; rfl

/-- Mixed-radix decomposition of a flat `(batch, time, node)` index. -/
lemma index_decomp (i T n : ℕ) :
    (i / (n * T) * T + i / n % T) * n + i % n = i := by
  have e1 : n * (i / n) + i % n = i := Nat.div_add_mod i n
  have e2 : T * (i / n / T) + i / n % T = i / n := Nat.div_add_mod (i / n) T
  have e3 : i / n / T = i / (n * T) := Nat.div_div_eq_div_mul i n T
  rw [← e3]
  calc (i / n / T * T + i / n % T) * n + i % n
      = (T * (i / n / T) + i / n % T) * n + i % n := by ring
    _ = i / n * n + i % n := by rw [e2]
    _ = n * (i / n) + i % n := by ring
    _ = i := e1

/-- The channel-0 slice only reads feature channel 0: two batches agreeing
there slice to equal tensors. -/
lemma select3_congr (X1 X2 : Tensor) (b T n f : ℕ)
    (h1 : X1.shape = [b, T, n, f]) (h2 : X2.shape = [b, T, n, f])
    (hflat : ∀ i, i < b * T * n → X1.data (i * f) = X2.data (i * f)) :
    select3 X1 = select3 X2 := by
  have d10 : X1.dim 0 = b := by rw [Tensor.dim, h1]; rfl
  have d11 : X1.dim 1 = T := by rw [Tensor.dim, h1]; rfl
  have d12 : X1.dim 2 = n := by rw [Tensor.dim, h1]; rfl
  have d13 : X1.dim 3 = f := by rw [Tensor.dim, h1]; rfl
  have d20 : X2.dim 0 = b := by rw [Tensor.dim, h2]; rfl
  have d21 : X2.dim 1 = T := by rw [Tensor.dim, h2]; rfl
  have d22 : X2.dim 2 = n := by rw [Tensor.dim, h2]; rfl
  have d23 : X2.dim 3 = f := by rw [Tensor.dim, h2]; rfl
  apply Tensor.ext
  · show [X1.dim 0, X1.dim 1, X1.dim 2] = [X2.dim 0, X2.dim 1, X2.dim 2]
    rw [d10, d11, d12, d20, d21, d22]
  · funext i
    show (if i < X1.dim 0 * X1.dim 1 * X1.dim 2 then X1.data (i * X1.dim 3) else 0)
      = (if i < X2.dim 0 * X2.dim 1 * X2.dim 2 then X2.data (i * X2.dim 3) else 0)
    rw [d10, d11, d12, d13, d20, d21, d22, d23]
    split_ifs with h
    · exact hflat i h
    · rfl

/-- The concrete example layers satisfy the library shape contracts. -/
lemma exShapesOk : ShapesOk exCfg exLayers :=
  ⟨fun _ => rfl, fun _ _ => rfl,
    ⟨fun _ _ => rfl, fun _ _ => rfl, fun _ _ => rfl, fun _ _ => rfl⟩,
    ⟨fun _ _ => rfl, fun _ _ => rfl, fun _ _ => rfl, fun _ _ => rfl⟩⟩

/-! The claims. -/

/-- C1: for every batch, `STAGGCN.predict(batch)` returns exactly the same
tensor as `STAGGCN.forward(batch)`: `predict` is a pure delegation to
`forward` with no extra transformation of the result. -/
theorem STAGGCN_predict_delegates_to_forward (cfg : Config) (L : Layers)
    (rng : ℕ → ℕ → ℝ) (batch : Batch) :
    STAGGCN.predict cfg L rng batch = STAGGCN.forward cfg L rng batch := rfl

/-- C2: `STAGGCN.calculate_loss(batch)` is the masked-MAE loss (mask value
0) of the inverse-normalized prediction against the inverse-normalized
ground truth: both `batch['y']` and `predict(batch)` are truncated to the
first `output_dim` feature channels, passed through the scaler's
`inverse_transform`, and given to `loss.masked_mae_torch`. -/
theorem STAGGCN_calculate_loss_spec (cfg : Config) (L : Layers)
    (rng : ℕ → ℕ → ℝ) (batch : Batch) :
    STAGGCN.calculate_loss cfg L rng batch
      = Option.map (fun yp => masked_mae_torch
          (cfg.inverse_transform (sliceLast cfg.output_dim yp))
          (cfg.inverse_transform (sliceLast cfg.output_dim batch.y)) 0)
        (STAGGCN.predict cfg L rng batch) := by
  unfold STAGGCN.calculate_loss
  cases STAGGCN.predict cfg L rng batch <;> rfl

/-- C3: on a batch whose input tensor has shape
`(batch_size, input_window, num_nodes, feature_dim)` with the configured
batch size, `STAGGCN.forward` returns a prediction tensor of shape
`(batch_size, output_window, num_nodes, 1)`. -/
theorem STAGGCN_forward_output_shape (cfg : Config) (L : Layers)
    (rng : ℕ → ℕ → ℝ) (batch : Batch) (c0 c1 c2 : ℕ)
    (hok : ShapesOk cfg L) (hch : cfg.choice = [c0, c1, c2])
    (h0 : c0 = 0 ∨ c0 = 1) (h1 : c1 = 0 ∨ c1 = 1) (h2 : c2 = 0 ∨ c2 = 1)
    (hne : c0 = 1 ∨ c1 = 1 ∨ c2 = 1)
    (hX : batch.X.shape
      = [cfg.batch_size, cfg.input_window, cfg.num_nodes, cfg.feature_dim])
    (hf : 0 < cfg.feature_dim) (hn : 0 < cfg.num_nodes)
    (hT : 0 < cfg.input_window) (hg : 0 < cfg.graph_dim)
    (htl : 0 < cfg.tcnLast) :
    ∃ out, STAGGCN.forward cfg L rng batch = some out ∧
      out.shape = [cfg.batch_size, cfg.output_window, cfg.num_nodes, 1] := by
  have hx2 := forward_x_shape cfg batch cfg.batch_size hX hT
  obtain ⟨mo, hmo, hmsh⟩ := model_forward_shape cfg L rng cfg.edge_index
    cfg.dtw_edge_index _ cfg.batch_size c0 c1 c2 hok hch h0 h1 h2 hne hx2
    hn hT hg htl
  have hcond : [cfg.batch_size, cfg.output_window, cfg.num_nodes, 1].prod
      = mo.numel := by
    rw [numel_of_shape _ _ hmsh]
    simp only [List.prod_cons, List.prod_nil, mul_one]
    ring
  refine ⟨⟨[cfg.batch_size, cfg.output_window, cfg.num_nodes, 1], mo.data⟩,
    ?_, rfl⟩
  simp only [STAGGCN.forward]
  rw [hmo]
  show reshapeE [cfg.batch_size, cfg.output_window, cfg.num_nodes, 1] mo = _
  unfold reshapeE
  rw [if_pos hcond]

/-- C3 witness at a concrete one-node configuration. -/
theorem STAGGCN_forward_output_shape_witness :
    ∃ out, STAGGCN.forward exCfg exLayers exRng exBatch = some out ∧
      out.shape = [1, 1, 1, 1] :=
  STAGGCN_forward_output_shape exCfg exLayers exRng exBatch 1 1 1 exShapesOk
    rfl (Or.inr rfl) (Or.inr rfl) (Or.inr rfl) (Or.inl rfl) rfl Nat.one_pos
    Nat.one_pos Nat.one_pos Nat.one_pos Nat.one_pos

/-- C4: `STAGGCN.forward` is deterministic given fixed weights and a fixed
random state: two runs on the same batch with identical parameters and
identical RNG state (driving the dropout layers) give identical outputs. -/
theorem STAGGCN_forward_deterministic (cfg : Config) (L : Layers)
    (rng1 rng2 : ℕ → ℕ → ℝ) (b1 b2 : Batch) (hr : rng1 = rng2)
    (hb : b1 = b2) :
    STAGGCN.forward cfg L rng1 b1 = STAGGCN.forward cfg L rng2 b2 := by
  rw [hr, hb]

/-- C4 witness at a concrete run. -/
theorem STAGGCN_forward_deterministic_witness :
    STAGGCN.forward exCfg exLayers exRng exBatch
      = STAGGCN.forward exCfg exLayers exRng exBatch :=
  STAGGCN_forward_deterministic exCfg exLayers exRng exRng exBatch exBatch
    rfl rfl

/-- C5: `STCell.forward` computes up to three branch outputs of shape
`(batch, node_num, graph_dim)` each, concatenates along the feature
dimension, in the fixed order temporal/spatial/semantic, exactly the
branches whose choice entry is 1, and reshapes the result to
`(batch*node_num, sum(choice)*graph_dim)`, the feature dimension consumed
by `output_linear`. -/
theorem STCell_forward_branch_concat (cfg : Config) (L : Layers)
    (rng : ℕ → ℕ → ℝ) (edge dtw x : Tensor) (b c0 c1 c2 : ℕ)
    (hok : ShapesOk cfg L) (hch : cfg.choice = [c0, c1, c2])
    (h0 : c0 = 0 ∨ c0 = 1) (h1 : c1 = 0 ∨ c1 = 1) (h2 : c2 = 0 ∨ c2 = 1)
    (hx : x.shape = [b * cfg.num_nodes, cfg.input_window])
    (hn : 0 < cfg.num_nodes) (hT : 0 < cfg.input_window)
    (hg : 0 < cfg.graph_dim) (htl : 0 < cfg.tcnLast) :
    ((STCell.tBranch cfg L rng x).shape = [b, cfg.num_nodes, cfg.graph_dim]
      ∧ (STCell.spOut cfg L rng edge x).shape
        = [b, cfg.num_nodes, cfg.graph_dim]
      ∧ (STCell.dtwOut cfg L rng dtw x).shape
        = [b, cfg.num_nodes, cfg.graph_dim])
    ∧ STCell.forward cfg L rng edge dtw x
      = (enabledConcat cfg.choice (STCell.tBranch cfg L rng x)
          (STCell.spOut cfg L rng edge x) (STCell.dtwOut cfg L rng dtw x)).map
        (reshapeI [STCell.output_dim cfg])
    ∧ ((c0 = 1 ∨ c1 = 1 ∨ c2 = 1) →
      ∃ st, STCell.forward cfg L rng edge dtw x = some st
        ∧ st.shape = [b * cfg.num_nodes, (c0 + c1 + c2) * cfg.graph_dim]
        ∧ st.lastDim = STAGGCNModel.output_dim cfg) := by
  have ht := tBranch_shape cfg L rng x b hok hx hn hT hg htl
  have hsp : (STCell.spOut cfg L rng edge x).shape
      = [b, cfg.num_nodes, cfg.graph_dim] :=
    gatBranch_shape cfg.num_nodes cfg.input_window cfg.graph_dim b L.sp _
      edge _ hok.sp (spInput_shape cfg L x _ hx) hn hg
  have hdtw : (STCell.dtwOut cfg L rng dtw x).shape
      = [b, cfg.num_nodes, cfg.graph_dim] :=
    gatBranch_shape cfg.num_nodes cfg.input_window cfg.graph_dim b L.dtw _
      dtw _ hok.dtw (dtwInput_shape cfg L x _ hx) hn hg
  refine ⟨⟨ht, hsp, hdtw⟩, ?_, ?_⟩
  · unfold STCell.forward
    rw [select_eq_enabledConcat]
  · intro hne
    obtain ⟨st, hst, hsh⟩ := STCell_forward_shape cfg L rng edge dtw x b
      c0 c1 c2 hok hch h0 h1 h2 hne hx hn hT hg htl
    refine ⟨st, hst, hsh, ?_⟩
    rw [lastDim_of_shape2 st _ _ hsh]
    simp only [STAGGCNModel.output_dim, hch, List.sum_cons, List.sum_nil]
    ring

/-- C5 witness at a concrete configuration with all branches enabled. -/
theorem STCell_forward_branch_concat_witness :
    ∃ st, STCell.forward exCfg exLayers exRng exCfg.edge_index
        exCfg.dtw_edge_index exX = some st
      ∧ st.shape = [1 * 1, (1 + 1 + 1) * 1]
      ∧ st.lastDim = STAGGCNModel.output_dim exCfg :=
  (STCell_forward_branch_concat exCfg exLayers exRng exCfg.edge_index
      exCfg.dtw_edge_index exX 1 1 1 1 exShapesOk rfl (Or.inr rfl)
      (Or.inr rfl) (Or.inr rfl) rfl Nat.one_pos Nat.one_pos Nat.one_pos
      Nat.one_pos).2.2 (Or.inl rfl)

/-- C6: every learned adaptive adjacency matrix
`softmax(relu(source_embed @ target_embed), dim=1)` (used by the spatial and
semantic branches of `STCell.forward` and by `LearnedGCN.forward`) is
row-stochastic: all entries are non-negative and each row sums to 1, for
every parameter values. -/
theorem learned_adjacency_row_stochastic (n k : ℕ) (S Tg : ℕ → ℕ → ℝ)
    (hn : 0 < n) :
    (∀ i, 0 ≤ (learnedMatrix n k S Tg).data i)
    ∧ ∀ r, ∑ c ∈ Finset.range n,
        (learnedMatrix n k S Tg).data (r * n + c) = 1 :=
  ⟨fun i => learnedMatrix_nonneg n k S Tg i,
   fun r => learnedMatrix_rowsum n k S Tg hn r⟩

/-- C6 witness on a concrete 2-node embedding. -/
theorem learned_adjacency_row_stochastic_witness :
    0 ≤ (learnedMatrix 2 12 (fun _ _ => 0) (fun _ _ => 0)).data 0
    ∧ ∑ c ∈ Finset.range 2,
        (learnedMatrix 2 12 (fun _ _ => 0) (fun _ _ => 0)).data (0 * 2 + c)
      = 1 :=
  ⟨(learned_adjacency_row_stochastic 2 12 (fun _ _ => 0) (fun _ _ => 0)
      (by decide)).1 0,
   (learned_adjacency_row_stochastic 2 12 (fun _ _ => 0) (fun _ _ => 0)
      (by decide)).2 0⟩

/-- C7: `TemporalConvNet` stacks `TemporalBlock`s where block `i` uses
dilation `2^i` and padding `(kernel_size-1) * 2^i`; each block (convolution
padded by `(kernel_size-1)*dilation` then chomped by the same amount)
preserves the temporal length, and its output at position `t` depends only
on input positions `≤ t`. -/
theorem temporal_conv_net_causal_structure :
    (∀ (numInputs : ℕ) (numChannels : List ℕ) (k : ℕ) (Ps : ℕ → TBParams)
        (ms : ℕ → ℕ → ℕ → ℝ) (x : Sig),
      temporalConvNet numInputs numChannels k Ps ms x
        = (List.range numChannels.length).foldl
          (fun s i => temporalBlock
            (if i = 0 then numInputs else numChannels.getD (i - 1) 0)
            (numChannels.getD i 0) k (2 ^ i) ((k - 1) * 2 ^ i) (Ps i)
            (ms (2 * i)) (ms (2 * i + 1)) s) x)
    ∧ (∀ (numInputs : ℕ) (numChannels : List ℕ) (k : ℕ) (Ps : ℕ → TBParams)
        (ms : ℕ → ℕ → ℕ → ℝ) (x : Sig), 2 ≤ k →
      (temporalConvNet numInputs numChannels k Ps ms x).len = x.len)
    ∧ (∀ (nIn nOut k d p : ℕ) (P : TBParams) (m1 m2 : ℕ → ℕ → ℝ) (x : Sig),
      p = (k - 1) * d → 0 < p →
      (temporalBlock nIn nOut k d p P m1 m2 x).len = x.len)
    ∧ (∀ (nIn nOut k d p : ℕ) (P : TBParams) (m1 m2 : ℕ → ℕ → ℝ) (x y : Sig)
        (t : ℕ), p = (k - 1) * d → x.len = y.len →
      (∀ c s, s ≤ t → x.val c s = y.val c s) →
      ∀ c, (temporalBlock nIn nOut k d p P m1 m2 x).val c t
        = (temporalBlock nIn nOut k d p P m1 m2 y).val c t) := by
  refine ⟨fun _ _ _ _ _ _ => rfl, ?_, ?_, ?_⟩
  · intro nI ch k Ps ms x hk
    exact temporalConvNet_len nI ch k Ps ms x hk
  · intro nIn nOut k d p P m1 m2 x hp hpos
    exact temporalBlock_len nIn nOut k d p P m1 m2 x hp hpos
  · intro nIn nOut k d p P m1 m2 x y t hp hlen h
    exact temporalBlock_causal nIn nOut k d p P m1 m2 x y t hp hlen h

/-- C7 witness at a concrete two-level stack and a concrete block. -/
theorem temporal_conv_net_causal_structure_witness :
    (temporalConvNet 1 [1, 1] 2 (fun _ => ⟨fun _ _ _ => 0, fun _ => 0,
        fun _ _ _ => 0, fun _ => 0, fun _ _ _ => 0, fun _ => 0⟩)
      (fun _ _ _ => 1) ⟨3, fun _ _ => 0⟩).len = 3
    ∧ (temporalBlock 1 1 2 1 1 ⟨fun _ _ _ => 0, fun _ => 0, fun _ _ _ => 0,
        fun _ => 0, fun _ _ _ => 0, fun _ => 0⟩ (fun _ _ => 1) (fun _ _ => 1)
      ⟨3, fun _ _ => 0⟩).len = 3
    ∧ (temporalBlock 1 1 2 1 1 ⟨fun _ _ _ => 0, fun _ => 0, fun _ _ _ => 0,
        fun _ => 0, fun _ _ _ => 0, fun _ => 0⟩ (fun _ _ => 1) (fun _ _ => 1)
      ⟨3, fun _ _ => 0⟩).val 0 0
      = (temporalBlock 1 1 2 1 1 ⟨fun _ _ _ => 0, fun _ => 0, fun _ _ _ => 0,
        fun _ => 0, fun _ _ _ => 0, fun _ => 0⟩ (fun _ _ => 1) (fun _ _ => 1)
      ⟨3, fun _ _ => 0⟩).val 0 0 :=
  ⟨temporal_conv_net_causal_structure.2.1 1 [1, 1] 2 _ _ _ (by decide),
   temporal_conv_net_causal_structure.2.2.1 1 1 2 1 1 _ _ _ _ rfl (by decide),
   temporal_conv_net_causal_structure.2.2.2 1 1 2 1 1 _ _ _ _ _ 0 rfl rfl
     (fun _ _ _ => rfl) 0⟩

/-- C8: `STAGGCN.forward` depends only on feature channel 0 of the input:
two batches whose `X` tensors share a shape and agree on `X[:, :, :, 0]`
(and may differ on every other channel and on `y`) produce identical
outputs under the same random state. -/
theorem STAGGCN_forward_depends_only_on_channel0 (cfg : Config) (L : Layers)
    (rng : ℕ → ℕ → ℝ) (X1 X2 y1 y2 : Tensor) (b T n f : ℕ)
    (h1 : X1.shape = [b, T, n, f]) (h2 : X2.shape = [b, T, n, f])
    (hagree : ∀ i0 i1 i2, i0 < b → i1 < T → i2 < n →
      X1.data (((i0 * T + i1) * n + i2) * f)
        = X2.data (((i0 * T + i1) * n + i2) * f)) :
    STAGGCN.forward cfg L rng ⟨X1, y1⟩ = STAGGCN.forward cfg L rng ⟨X2, y2⟩ := by
  have hflat : ∀ i, i < b * T * n → X1.data (i * f) = X2.data (i * f) := by
    intro i hi
    rcases Nat.eq_zero_or_pos n with hn0 | hn
    · subst hn0
      rw [Nat.mul_zero] at hi
      exact absurd hi (Nat.not_lt_zero i)
    rcases Nat.eq_zero_or_pos T with hT0 | hT
    · subst hT0
      rw [Nat.mul_zero, Nat.zero_mul] at hi
      exact absurd hi (Nat.not_lt_zero i)
    have hi0 : i / (n * T) < b := by
      rw [Nat.div_lt_iff_lt_mul (Nat.mul_pos hn hT)]
      calc i < b * T * n := hi
        _ = b * (n * T) := by ring
    have hkey := hagree (i / (n * T)) (i / n % T) (i % n) hi0
      (Nat.mod_lt _ hT) (Nat.mod_lt _ hn)
    rwa [index_decomp i T n] at hkey
  have hsel := select3_congr X1 X2 b T n f h1 h2 hflat
  simp only [STAGGCN.forward]
  rw [hsel]

/-- C8 witness: two concrete batches differing only in `y`. -/
theorem STAGGCN_forward_depends_only_on_channel0_witness :
    STAGGCN.forward exCfg exLayers exRng
        ⟨⟨[1, 1, 1, 1], fun _ => 1⟩, ⟨[1, 1, 1, 1], fun _ => 1⟩⟩
      = STAGGCN.forward exCfg exLayers exRng
        ⟨⟨[1, 1, 1, 1], fun _ => 1⟩, ⟨[1, 1, 1, 1], fun _ => 0⟩⟩ :=
  STAGGCN_forward_depends_only_on_channel0 exCfg exLayers exRng _ _ _ _
    1 1 1 1 rfl rfl (fun _ _ _ _ _ _ => rfl)

/-- C9: the final reshape of `STAGGCN.forward` uses the construction-time
`batch_size`; a batch whose leading dimension differs has an element-count
mismatch there, and `forward` errors instead of returning a tensor. -/
theorem STAGGCN_forward_batch_size_mismatch_fails (cfg : Config) (L : Layers)
    (rng : ℕ → ℕ → ℝ) (batch : Batch) (b c0 c1 c2 : ℕ)
    (hok : ShapesOk cfg L) (hch : cfg.choice = [c0, c1, c2])
    (h0 : c0 = 0 ∨ c0 = 1) (h1 : c1 = 0 ∨ c1 = 1) (h2 : c2 = 0 ∨ c2 = 1)
    (hne : c0 = 1 ∨ c1 = 1 ∨ c2 = 1)
    (hX : batch.X.shape
      = [b, cfg.input_window, cfg.num_nodes, cfg.feature_dim])
    (hb : b ≠ cfg.batch_size)
    (hn : 0 < cfg.num_nodes) (hT : 0 < cfg.input_window)
    (hg : 0 < cfg.graph_dim) (htl : 0 < cfg.tcnLast)
    (how : 0 < cfg.output_window) :
    STAGGCN.forward cfg L rng batch = none := by
  have hx2 := forward_x_shape cfg batch b hX hT
  obtain ⟨mo, hmo, hmsh⟩ := model_forward_shape cfg L rng cfg.edge_index
    cfg.dtw_edge_index _ b c0 c1 c2 hok hch h0 h1 h2 hne hx2 hn hT hg htl
  have hncond : ¬([cfg.batch_size, cfg.output_window, cfg.num_nodes, 1].prod
      = mo.numel) := by
    rw [numel_of_shape _ _ hmsh]
    simp only [List.prod_cons, List.prod_nil, mul_one]
    intro h
    apply hb
    have h3 : cfg.output_window * cfg.num_nodes * cfg.batch_size
        = cfg.output_window * cfg.num_nodes * b := by
      calc cfg.output_window * cfg.num_nodes * cfg.batch_size
          = cfg.batch_size * (cfg.output_window * cfg.num_nodes) := by ring
        _ = b * cfg.num_nodes * cfg.output_window := h
        _ = cfg.output_window * cfg.num_nodes * b := by ring
    exact (Nat.eq_of_mul_eq_mul_left (Nat.mul_pos how hn) h3).symm
  simp only [STAGGCN.forward]
  rw [hmo]
  show reshapeE [cfg.batch_size, cfg.output_window, cfg.num_nodes, 1] mo = none
  unfold reshapeE
  rw [if_neg hncond]

/-- C9 witness: a concrete batch of leading dimension 2 against the
configured batch size 1. -/
theorem STAGGCN_forward_batch_size_mismatch_fails_witness :
    STAGGCN.forward exCfg exLayers exRng exBatch2 = none :=
  STAGGCN_forward_batch_size_mismatch_fails exCfg exLayers exRng exBatch2
    2 1 1 1 exShapesOk rfl (Or.inr rfl) (Or.inr rfl) (Or.inr rfl)
    (Or.inl rfl) rfl (by decide) Nat.one_pos Nat.one_pos Nat.one_pos
    Nat.one_pos Nat.one_pos

/-- C10: the residual transform `x = seq_linear(x) + x` runs once per
enabled graph branch, so with both `choice[1] = 1` and `choice[2] = 1` the
semantic (DTW) branch receives
`seq_linear(seq_linear(x0)+x0) + (seq_linear(x0)+x0)` — the transform
applied twice — while the spatial branch received `seq_linear(x0)+x0`, and
on a concrete input these two branch inputs differ. -/
theorem STCell_double_seq_transform_on_dtw_branch :
    (∀ (cfg : Config) (L : Layers) (x : Tensor),
      cfg.choice.getD 1 0 = 1 → cfg.choice.getD 2 0 = 1 →
      STCell.spInput cfg L x
        = addT (linearT L.seqW L.seqB cfg.input_window x) x
      ∧ STCell.dtwInput cfg L x
        = addT (linearT L.seqW L.seqB cfg.input_window (STCell.spInput cfg L x))
            (STCell.spInput cfg L x))
    ∧ STCell.dtwInput exCfg exLayers exX ≠ STCell.spInput exCfg exLayers exX := by
  constructor
  · intro cfg L x hc1 hc2
    constructor
    · unfold STCell.spInput
      rw [if_pos hc1]
      rfl
    · unfold STCell.dtwInput
      rw [if_pos hc2]
      rfl
  · intro h
    have hd := congrArg (fun t => t.data 0) h
    simp only [STCell.dtwInput, STCell.spInput, STCell.seqTransform, exCfg,
      exLayers, exX, addT, linearT, Tensor.lastDim, List.getD_cons_zero,
      List.getD_cons_succ, if_pos] at hd
    norm_num [Finset.sum_range_one] at hd

/-- C10 witness: the threading equations at the concrete example. -/
theorem STCell_double_seq_transform_on_dtw_branch_witness :
    STCell.spInput exCfg exLayers exX
      = addT (linearT exLayers.seqW exLayers.seqB exCfg.input_window exX) exX
    ∧ STCell.dtwInput exCfg exLayers exX
      = addT (linearT exLayers.seqW exLayers.seqB exCfg.input_window
          (STCell.spInput exCfg exLayers exX))
        (STCell.spInput exCfg exLayers exX) :=
  STCell_double_seq_transform_on_dtw_branch.1 exCfg exLayers exX rfl rfl

end STAGGCNV
